import Mathlib

/-!
Shallow embedding of `src/tasmotaVersionChecker.ts` (TasmotaVersionChecker).

The checker keeps an in-memory version triple `lastTasmotaVersion`, loads it
from a persisted file at construction time, and on every check cycle fetches
the latest release tag, parses it, compares it lexicographically with the
stored triple, and on a strictly newer version fires a trigger, persists the
new triple, and advances the in-memory value.

Modelling conventions:
- A version triple is `Version` (fields `major`, `minor`, `revision`, all `Nat`,
  mirroring the non-negative integers produced by the anchored digit regex).
- The persisted file is `Option String` (`none` = file absent, `some c` = file
  with contents `c`).
- The network fetch is an oracle value `FetchOutcome`: either a transport-level
  failure (rejected promise) or a response carrying a status code and the
  `tag_name` field of the parsed body.
- The trigger sink is modelled by returning the list of payloads fired during
  the cycle; the persistence write may fail, modelled by a `writeOk` flag
  (on failure the exception is caught, so the file is simply left unchanged).
- JavaScript `null` for the in-memory field is modelled by `Option Version`
  (`none` = null), so the `lastTasmotaVersion === null` branch of
  `checkTasmotaReleases` is represented faithfully.
-/

/-- A parsed version triple `{major, minor, revision}`. -/
structure Version where
  major : Nat
  minor : Nat
  revision : Nat
deriving DecidableEq, Repr

/-- The sentinel triple `(0,0,0)` returned on parse failure or missing file. -/
def sentinelVersion : Version := ⟨0, 0, 0⟩

/-- JavaScript `Number` applied to a nonempty string of decimal digits:
fold the decimal digits of the character list into a natural number. The
runtime agrees with this exact conversion for values up to `2 ^ 53`
(`Number.MAX_SAFE_INTEGER + 1`) and rounds to the nearest double beyond, so
every theorem below that depends on the numeric value confines itself to that
exact range; the other theorems use the parse result only through properties
insensitive to the numeric value. -/
def charsToNat (cs : List Char) : Nat :=
  cs.foldl (fun a c => 10 * a + (c.toNat - 48)) 0

/-- The anchored regex `^v(?<major>\d+)\.(?<minor>\d+)\.(?<revision>\d+)$`
from `parseVersionString` (line 26): the string must start with `v`, and the
remainder must split on `.` into exactly three nonempty all-digit groups
(`\d` without the unicode flag is exactly `0`-`9`, and `$` without the
multiline flag anchors at the very end of the string). Returns the three
captured groups converted by `Number`, or `none` on mismatch.
`parseGroups` handles the three capture groups once the leading `v` has been
consumed and the remainder has been split on `.`. -/
def parseGroups (gs : List (List Char)) : Option Version :=
  match gs with
  | [d1, d2, d3] =>
    if d1 ≠ [] ∧ d2 ≠ [] ∧ d3 ≠ [] ∧ (∀ x ∈ d1, x.isDigit = true) ∧
        (∀ x ∈ d2, x.isDigit = true) ∧ (∀ x ∈ d3, x.isDigit = true) then
      some ⟨charsToNat d1, charsToNat d2, charsToNat d3⟩
    else none
  | _ => none

def parseTag (cs : List Char) : Option Version :=
  match cs with
  | [] => none
  | c :: rest =>
    if c = 'v' then parseGroups (rest.splitOn '.')
    else none

/-- Attribution of `parseGroups` and `parseTag` to the source: together they
are the anchored regex match of `parseVersionString` (line 26). -/
theorem parseTag_cons (c : Char) (rest : List Char) :
    parseTag (c :: rest) = if c = 'v' then parseGroups (rest.splitOn '.') else none := rfl

/-- `parseVersionString` (lines 25-34): on regex mismatch return the sentinel
`{major: 0, minor: 0, revision: 0}`, otherwise the captured triple. -/
def parseVersionString (s : String) : Version :=
  match parseTag s.data with
  | none => sentinelVersion
  | some v => v

/-- The character for a single decimal digit (`0 ≤ d ≤ 9`). -/
def digitChar (d : Nat) : Char := Char.ofNat (48 + d)

/-- Decimal rendering worker: peels decimal digits from the low end into an
accumulator, with structural fuel (`fuel > n` suffices). -/
def natCharsCore (fuel : Nat) (n : Nat) (acc : List Char) : List Char :=
  match fuel with
  | 0 => acc
  | fuel + 1 =>
    if n < 10 then digitChar (n % 10) :: acc
    else natCharsCore fuel (n / 10) (digitChar (n % 10) :: acc)

/-- Exact decimal expansion of a natural number; this is what a JavaScript
template literal interpolating a non-negative integral number produces for
values below `10 ^ 21`. -/
def natChars (n : Nat) : List Char := natCharsCore (n + 1) n []

/-- Exponential-notation rendering used by ECMAScript `ToString` for numbers
of magnitude `10 ^ 21` and above: the significant digits (exact expansion with
trailing zeros stripped), a decimal point after the first when more than one
remains, then `e+` and the decimal exponent. For example `10 ^ 21` renders as
`1e+21`. This agrees with the runtime whenever the stripped exact expansion is
the shortest representation of the double (as at `10 ^ 21`, which is exactly
representable); no theorem below evaluates this branch elsewhere. -/
def expChars (n : Nat) : List Char :=
  match ((natChars n).reverse.dropWhile (fun c => c = '0')).reverse with
  | [] => []
  | [d] => d :: 'e' :: '+' :: natChars ((natChars n).length - 1)
  | d :: rest => d :: '.' :: (rest ++ 'e' :: '+' :: natChars ((natChars n).length - 1))

/-- JavaScript number-to-string conversion of a non-negative integral value,
as performed by the template literals of lines 22, 67, 73, 94 and 110: the
plain decimal expansion below `10 ^ 21`, exponential notation from `10 ^ 21`
on. -/
def jsNatChars (n : Nat) : List Char :=
  if n < 10 ^ 21 then natChars n else expChars n

/-- The text written by `saveTasmotaVersion` and logged elsewhere:
the template literal of line 73 rendering a triple as the tag text. -/
def formatVersion (v : Version) : String :=
  ⟨'v' :: (jsNatChars v.major ++ '.' :: (jsNatChars v.minor ++ '.' :: jsNatChars v.revision))⟩

/-- `saveTasmotaVersion` (lines 71-77): overwrite the file with the rendered
triple; a write failure is caught and logged, leaving the file unchanged
(`writeOk` models whether the `fs.writeFileSync` call succeeds). -/
def saveTasmotaVersion (file : Option String) (writeOk : Bool) (v : Version) : Option String :=
  if writeOk then some (formatVersion v) else file

/-- `loadTasmotaVersionFromFile` (lines 79-86): sentinel when no file exists,
otherwise parse the full file contents. -/
def loadTasmotaVersionFromFile (file : Option String) : Version :=
  match file with
  | none => sentinelVersion
  | some contents => parseVersionString contents

/-- Outcome of one `makeHttpsRequest` round-trip as consumed by
`getLatestTasmotaVersion`: a transport failure (rejected promise / timeout),
or a response with its status code and the `tag_name` field of the JSON body. -/
inductive FetchOutcome where
  | transportError : FetchOutcome
  | response (statusCode : Nat) (tagName : String) : FetchOutcome
deriving DecidableEq

/-- `getLatestTasmotaVersion` (lines 49-69): a caught transport error leaves
`result` undefined and a non-200 status returns `null`; on 200 the tag is
parsed with `parseVersionString` (whose result is never `null`, so the
`version !== null` guard only affects logging) and returned. -/
def getLatestTasmotaVersion (f : FetchOutcome) : Option Version :=
  match f with
  | .transportError => none
  | .response statusCode tagName =>
    if statusCode ≠ 200 then none
    else some (parseVersionString tagName)

/-- `updateAvailable` expression of `checkTasmotaReleases` (lines 97-99). -/
def updateAvailable (old nv : Version) : Bool :=
  decide (old.major < nv.major) ||
    (decide (old.major = nv.major) && decide (old.minor < nv.minor)) ||
    (decide (old.major = nv.major) && decide (old.minor = nv.minor) &&
      decide (old.revision < nv.revision))

/-- Payload of the `new_tasmota_version` trigger (lines 101-108). -/
structure TriggerTokens where
  new_major : Nat
  new_minor : Nat
  new_revision : Nat
  old_major : Nat
  old_minor : Nat
  old_revision : Nat
deriving DecidableEq, Repr

/-- Observable result of one check cycle: the in-memory triple, the persisted
file, and the list of trigger payloads fired during the cycle. -/
structure CycleResult where
  lastTasmotaVersion : Option Version
  file : Option String
  triggered : List TriggerTokens
deriving DecidableEq, Repr

/-- `checkTasmotaReleases` (lines 88-118): on fetch failure do nothing; on
success, the `lastTasmotaVersion === null` branch records the fetched version
without firing; otherwise fire the trigger and persist exactly when
`updateAvailable` holds. -/
def checkTasmotaReleases (last : Option Version) (file : Option String)
    (f : FetchOutcome) (writeOk : Bool) : CycleResult :=
  match getLatestTasmotaVersion f with
  | none => ⟨last, file, []⟩
  | some newVersion =>
    match last with
    | none => ⟨some newVersion, saveTasmotaVersion file writeOk newVersion, []⟩
    | some old =>
      if updateAvailable old newVersion then
        ⟨some newVersion, saveTasmotaVersion file writeOk newVersion,
          [⟨newVersion.major, newVersion.minor, newVersion.revision,
            old.major, old.minor, old.revision⟩]⟩
      else ⟨some old, file, []⟩

/-- The constructor (line 15): `lastTasmotaVersion` is initialized to the
result of `loadTasmotaVersionFromFile`, which is always a triple, never null. -/
def initLastTasmotaVersion (file : Option String) : Option Version :=
  some (loadTasmotaVersionFromFile file)

/-- Strict lexicographic order on `(major, minor, revision)` (specification
side definition, to be compared with the code's `updateAvailable`). -/
def lexLt (a b : Version) : Prop :=
  a.major < b.major ∨
    (a.major = b.major ∧ (a.minor < b.minor ∨
      (a.minor = b.minor ∧ a.revision < b.revision)))

instance (a b : Version) : Decidable (lexLt a b) := by
  unfold lexLt
  infer_instance

/-- Specification-side statement of the anchored pattern
`v<digits>.<digits>.<digits>`: the string decomposes as a `v` followed by
three nonempty all-digit groups separated by single dots. -/
def matchesVersionPattern (s : String) : Prop :=
  ∃ d1 d2 d3 : List Char,
    d1 ≠ [] ∧ d2 ≠ [] ∧ d3 ≠ [] ∧
    (∀ c ∈ d1, c.isDigit = true) ∧ (∀ c ∈ d2, c.isDigit = true) ∧
    (∀ c ∈ d3, c.isDigit = true) ∧
    s.data = 'v' :: (d1 ++ '.' :: (d2 ++ '.' :: d3))

/-! ### Decimal rendering lemmas -/

theorem digitChar_isDigit : ∀ d, d < 10 → (digitChar d).isDigit = true := by decide

theorem toNat_digitChar : ∀ d, d < 10 → (digitChar d).toNat = 48 + d := by decide

theorem isDigit_ne_dot (c : Char) (h : c.isDigit = true) : c ≠ '.' := by
  intro heq
  rw [heq] at h
  exact absurd h (by decide)

theorem natCharsCore_spec : ∀ (fuel n : Nat) (acc : List Char), n < fuel → 0 < n →
    natCharsCore fuel n acc = ((Nat.digits 10 n).map digitChar).reverse ++ acc := by
  intro fuel
  induction fuel with
  | zero => intro n acc h _; omega
  | succ fuel ih =>
    intro n acc hlt hpos
    simp only [natCharsCore]
    by_cases h10 : n < 10
    · rw [if_pos h10]
      rw [Nat.digits_def' (by norm_num : (1:ℕ) < 10) hpos]
      rw [Nat.div_eq_of_lt h10, Nat.digits_zero]
      simp
    · rw [if_neg h10]
      have hdiv_pos : 0 < n / 10 := Nat.div_pos (le_of_not_lt h10) (by norm_num)
      have hdiv_lt : n / 10 < fuel := by
        have := Nat.div_lt_self hpos (by norm_num : 1 < 10)
        omega
      rw [ih (n / 10) (digitChar (n % 10) :: acc) hdiv_lt hdiv_pos]
      rw [Nat.digits_def' (by norm_num : (1:ℕ) < 10) hpos]
      simp

theorem natChars_eq (n : Nat) :
    natChars n = if n = 0 then ['0'] else ((Nat.digits 10 n).map digitChar).reverse := by
  by_cases h : n = 0
  · subst h
    decide
  · rw [if_neg h, natChars,
      natCharsCore_spec (n + 1) n [] (Nat.lt_succ_self n) (Nat.pos_of_ne_zero h),
      List.append_nil]

theorem natChars_ne_nil (n : Nat) : natChars n ≠ [] := by
  rw [natChars_eq]
  split
  · simp
  · simp [Nat.digits_ne_nil_iff_ne_zero.mpr (by assumption)]

theorem natChars_all_digit (n : Nat) : ∀ c ∈ natChars n, c.isDigit = true := by
  rw [natChars_eq]
  split
  · intro c hc
    rw [List.mem_singleton] at hc
    subst hc
    decide
  · intro c hc
    rw [List.mem_reverse, List.mem_map] at hc
    obtain ⟨d, hd, rfl⟩ := hc
    exact digitChar_isDigit d (Nat.digits_lt_base (by norm_num) hd)

theorem foldr_digitChar (D : List Nat) (h : ∀ d ∈ D, d < 10) :
    D.foldr (fun d a => 10 * a + ((digitChar d).toNat - 48)) 0 = Nat.ofDigits 10 D := by
  induction D with
  | nil => rfl
  | cons d D ih =>
    have hd : d < 10 := h d (List.mem_cons_self d D)
    have hD : ∀ x ∈ D, x < 10 := fun x hx => h x (List.mem_cons_of_mem d hx)
    rw [List.foldr_cons, ih hD, Nat.ofDigits_cons, toNat_digitChar d hd]
    omega

theorem charsToNat_natChars (n : Nat) : charsToNat (natChars n) = n := by
  rw [natChars_eq]
  by_cases h : n = 0
  · subst h
    decide
  · rw [if_neg h]
    unfold charsToNat
    rw [List.foldl_reverse, List.foldr_map]
    have := foldr_digitChar (Nat.digits 10 n)
      (fun d hd => Nat.digits_lt_base (by norm_num) hd)
    exact this.trans (Nat.ofDigits_digits 10 n)

/-! ### Parser lemmas -/

theorem intercalate_three (A B C : List Char) :
    List.intercalate ['.'] [A, B, C] = A ++ '.' :: (B ++ '.' :: C) := by
  simp [List.intercalate, List.intersperse]

theorem natChars_not_dot (n : Nat) : '.' ∉ natChars n := by
  intro hmem
  exact isDigit_ne_dot '.' (natChars_all_digit n '.' hmem) rfl

theorem jsNatChars_small {n : Nat} (h : n < 10 ^ 21) : jsNatChars n = natChars n := by
  unfold jsNatChars
  rw [if_pos h]

theorem parseTag_natChars (a b c : Nat) :
    parseTag ('v' :: (natChars a ++ '.' :: (natChars b ++ '.' :: natChars c))) =
      some ⟨a, b, c⟩ := by
  rw [parseTag_cons, if_pos rfl]
  have hx : ∀ l ∈ [natChars a, natChars b, natChars c], '.' ∉ l := by
    intro l hl
    simp only [List.mem_cons, List.mem_singleton, List.not_mem_nil, or_false] at hl
    rcases hl with rfl | rfl | rfl
    · exact natChars_not_dot a
    · exact natChars_not_dot b
    · exact natChars_not_dot c
  have hsplit : (natChars a ++ '.' :: (natChars b ++ '.' :: natChars c)).splitOn '.' =
      [natChars a, natChars b, natChars c] := by
    rw [← intercalate_three]
    exact List.splitOn_intercalate [natChars a, natChars b, natChars c] '.' hx (by simp)
  rw [hsplit]
  show (if _ ∧ _ ∧ _ ∧ _ ∧ _ ∧ _ then _ else _) = _
  rw [if_pos ⟨natChars_ne_nil a, natChars_ne_nil b, natChars_ne_nil c,
    natChars_all_digit a, natChars_all_digit b, natChars_all_digit c⟩]
  rw [charsToNat_natChars, charsToNat_natChars, charsToNat_natChars]

theorem parseVersionString_natChars (a b c : Nat) :
    parseVersionString ⟨'v' :: (natChars a ++ '.' :: (natChars b ++ '.' :: natChars c))⟩ =
      ⟨a, b, c⟩ := by
  show (match parseTag ('v' :: (natChars a ++ '.' :: (natChars b ++ '.' :: natChars c))) with
    | none => sentinelVersion
    | some v => v) = (⟨a, b, c⟩ : Version)
  rw [parseTag_natChars]

theorem parseTag_some_matches {s : String} {v : Version}
    (h : parseTag s.data = some v) : matchesVersionPattern s := by
  rcases hd : s.data with _ | ⟨c, rest⟩
  · rw [hd] at h
    exact Option.noConfusion h
  · rw [hd, parseTag_cons] at h
    by_cases hc : c = 'v'
    · rw [if_pos hc] at h
      subst hc
      rcases hsp : rest.splitOn '.' with _ | ⟨d1, _ | ⟨d2, _ | ⟨d3, _ | ⟨d4, tl⟩⟩⟩⟩ <;>
          rw [hsp] at h <;> simp only [parseGroups] at h <;>
          try exact Option.noConfusion h
      by_cases hcond : d1 ≠ [] ∧ d2 ≠ [] ∧ d3 ≠ [] ∧ (∀ x ∈ d1, x.isDigit = true) ∧
          (∀ x ∈ d2, x.isDigit = true) ∧ (∀ x ∈ d3, x.isDigit = true)
      · obtain ⟨h1, h2, h3, hd1, hd2, hd3⟩ := hcond
        refine ⟨d1, d2, d3, h1, h2, h3, hd1, hd2, hd3, ?_⟩
        rw [hd]
        have hrest : List.intercalate ['.'] (rest.splitOn '.') = rest :=
          List.intercalate_splitOn rest '.'
        rw [hsp, intercalate_three] at hrest
        rw [hrest]
      · rw [if_neg hcond] at h
        exact Option.noConfusion h
    · rw [if_neg hc] at h
      exact Option.noConfusion h

theorem parseVersionString_not_matches {s : String}
    (h : ¬ matchesVersionPattern s) : parseVersionString s = sentinelVersion := by
  unfold parseVersionString
  rcases hp : parseTag s.data with _ | v
  · rfl
  · exact absurd (parseTag_some_matches hp) h

theorem updateAvailable_iff (old nv : Version) :
    updateAvailable old nv = true ↔ lexLt old nv := by
  unfold updateAvailable lexLt
  simp only [Bool.or_eq_true, Bool.and_eq_true, decide_eq_true_eq]
  omega

/-! ### Claims -/

/-- Claim C1: with no persisted file, `loadTasmotaVersionFromFile` does return
the sentinel `(0,0,0)` — but, contrary to the claim, the very first successful
fetch (here `v1.0.1`) does fire the update trigger: the in-memory value after
construction is the sentinel triple, never JavaScript `null`, so the
first-observation branch of `checkTasmotaReleases` that would suppress the
notification is unreachable. This theorem evaluates the code at that failing
input. -/
theorem no_file_first_fetch_still_fires :
    loadTasmotaVersionFromFile none = ⟨0, 0, 0⟩ ∧
    initLastTasmotaVersion none = some ⟨0, 0, 0⟩ ∧
    (checkTasmotaReleases (initLastTasmotaVersion none) none
        (FetchOutcome.response 200 "v1.0.1") true).triggered = [⟨1, 0, 1, 0, 0, 0⟩] := by
  decide

/-- Claim C2 counterexample: at the triple `(10^21, 0, 0)` — whose major field
is exactly representable as a double, so the value is reachable in the
program — the template literal renders exponential notation `v1e+21.0.0`, the
anchored regex rejects it, and parsing returns the sentinel instead of the
original triple: the round-trip law fails as universally stated. -/
theorem parse_format_roundtrip_fails_large :
    formatVersion ⟨10 ^ 21, 0, 0⟩ = "v1e+21.0.0" ∧
    parseVersionString (formatVersion ⟨10 ^ 21, 0, 0⟩) = ⟨0, 0, 0⟩ ∧
    parseVersionString (formatVersion ⟨10 ^ 21, 0, 0⟩) ≠ ⟨10 ^ 21, 0, 0⟩ := by
  decide

/-- Claim C2 (amended): for every version triple whose three fields are below
`2 ^ 53` — the range in which JavaScript integers are exact and are rendered
in plain decimal — parsing the rendered textual form
`v{major}.{minor}.{revision}` returns a triple equal to `v` (round-trip law).
Outside that range the law fails: see the counterexample above. -/
theorem parse_format_roundtrip :
    ∀ v : Version, v.major < 2 ^ 53 → v.minor < 2 ^ 53 → v.revision < 2 ^ 53 →
      parseVersionString (formatVersion v) = v := by
  intro v h1 h2 h3
  have hb : (2 : Nat) ^ 53 < 10 ^ 21 := by norm_num
  obtain ⟨a, b, c⟩ := v
  show parseVersionString ⟨'v' :: (jsNatChars a ++ '.' :: (jsNatChars b ++ '.' :: jsNatChars c))⟩ =
    (⟨a, b, c⟩ : Version)
  rw [jsNatChars_small (h1.trans hb), jsNatChars_small (h2.trans hb),
    jsNatChars_small (h3.trans hb)]
  exact parseVersionString_natChars a b c

/-- Witness for C2 at the triple (1,2,3). -/
theorem parse_format_roundtrip_witness :
    (1 : Nat) < 2 ^ 53 ∧ (2 : Nat) < 2 ^ 53 ∧ (3 : Nat) < 2 ^ 53 ∧
    parseVersionString (formatVersion ⟨1, 2, 3⟩) = ⟨1, 2, 3⟩ :=
  ⟨by decide, by decide, by decide,
    parse_format_roundtrip ⟨1, 2, 3⟩ (by decide) (by decide) (by decide)⟩

/-- Claim C3: every input string that does not exactly match the anchored
pattern `v<digits>.<digits>.<digits>` parses to the sentinel triple `(0,0,0)`;
`parseVersionString` is a total function, so it never fails. -/
theorem malformed_input_parses_to_sentinel :
    ∀ s : String, ¬ matchesVersionPattern s → parseVersionString s = ⟨0, 0, 0⟩ :=
  fun _ h => parseVersionString_not_matches h

/-- Witness for C3 at the empty string. -/
theorem malformed_input_parses_to_sentinel_witness :
    ¬ matchesVersionPattern "" ∧ parseVersionString "" = ⟨0, 0, 0⟩ := by
  have h : ¬ matchesVersionPattern "" := by
    rintro ⟨d1, d2, d3, -, -, -, -, -, -, hdata⟩
    exact List.noConfusion hdata
  exact ⟨h, malformed_input_parses_to_sentinel "" h⟩

/-- Claim C4: the `updateAvailable` predicate of the check cycle holds exactly
when the fetched triple is strictly greater than the stored one in
lexicographic order on `(major, minor, revision)`; in particular it is true
for `(1,2,3) → (1,2,4)`, false for `(1,2,3) → (1,2,3)` and for
`(2,0,0) → (1,9,9)`. -/
theorem update_available_iff_lex_greater :
    (∀ old nv : Version, updateAvailable old nv = true ↔ lexLt old nv) ∧
    updateAvailable ⟨1, 2, 3⟩ ⟨1, 2, 4⟩ = true ∧
    updateAvailable ⟨1, 2, 3⟩ ⟨1, 2, 3⟩ = false ∧
    updateAvailable ⟨2, 0, 0⟩ ⟨1, 9, 9⟩ = false :=
  ⟨updateAvailable_iff, by decide, by decide, by decide⟩

/-- Claim C5: when the fetch fails at the transport level or returns a
non-200 status, `getLatestTasmotaVersion` returns `none` and the check cycle
fires no notification, writes nothing, and leaves the in-memory version
unchanged. -/
theorem fetch_failure_is_noop :
    ∀ (last : Option Version) (file : Option String) (w : Bool) (f : FetchOutcome),
      (f = FetchOutcome.transportError ∨ ∃ c t, f = FetchOutcome.response c t ∧ c ≠ 200) →
      getLatestTasmotaVersion f = none ∧
      checkTasmotaReleases last file f w = ⟨last, file, []⟩ := by
  intro last file w f h
  have hg : getLatestTasmotaVersion f = none := by
    rcases h with rfl | ⟨c, t, rfl, hc⟩
    · rfl
    · simp [getLatestTasmotaVersion, hc]
  refine ⟨hg, ?_⟩
  simp [checkTasmotaReleases, hg]

/-- Witness for C5 at a transport error with stored version `(1,2,3)`. -/
theorem fetch_failure_is_noop_witness :
    getLatestTasmotaVersion FetchOutcome.transportError = none ∧
    checkTasmotaReleases (some ⟨1, 2, 3⟩) (some "v1.2.3") FetchOutcome.transportError true =
      ⟨some ⟨1, 2, 3⟩, some "v1.2.3", []⟩ :=
  fetch_failure_is_noop (some ⟨1, 2, 3⟩) (some "v1.2.3") true FetchOutcome.transportError
    (Or.inl rfl)

/-- Claim C6: with persisted `(1,0,0)` and a successful fetch of `(1,0,1)`,
the check cycle fires exactly one trigger payload carrying the six integer
fields `new=(1,0,1)`, `old=(1,0,0)`, persists `v1.0.1`, and advances the
in-memory version to `(1,0,1)`. -/
theorem confirmed_update_notifies_once_and_persists :
    checkTasmotaReleases (initLastTasmotaVersion (some "v1.0.0")) (some "v1.0.0")
        (FetchOutcome.response 200 "v1.0.1") true =
      ⟨some ⟨1, 0, 1⟩, some "v1.0.1", [⟨1, 0, 1, 1, 0, 0⟩]⟩ := by
  decide

/-- Claim C7: when the fetch succeeds with a version equal to or
lexicographically below the current in-memory version, the cycle fires no
notification, does not write the file, and leaves the in-memory version
unchanged. -/
theorem not_newer_is_frame_noop :
    ∀ (old nv : Version) (file : Option String) (w : Bool) (f : FetchOutcome),
      getLatestTasmotaVersion f = some nv →
      (lexLt nv old ∨ nv = old) →
      checkTasmotaReleases (some old) file f w = ⟨some old, file, []⟩ := by
  intro old nv file w f hg hle
  have hu : updateAvailable old nv = false := by
    rw [← Bool.not_eq_true, updateAvailable_iff]
    unfold lexLt at hle ⊢
    rcases hle with hlt | heq
    · omega
    · subst heq
      omega
  simp [checkTasmotaReleases, hg, hu]

/-- Witness for C7 at stored `(1,0,0)` and a fetch of the equal tag `v1.0.0`. -/
theorem not_newer_is_frame_noop_witness :
    getLatestTasmotaVersion (FetchOutcome.response 200 "v1.0.0") = some ⟨1, 0, 0⟩ ∧
    checkTasmotaReleases (some ⟨1, 0, 0⟩) (some "v1.0.0")
        (FetchOutcome.response 200 "v1.0.0") true = ⟨some ⟨1, 0, 0⟩, some "v1.0.0", []⟩ :=
  ⟨by decide,
    not_newer_is_frame_noop ⟨1, 0, 0⟩ ⟨1, 0, 0⟩ (some "v1.0.0") true
      (FetchOutcome.response 200 "v1.0.0") (by decide) (Or.inr rfl)⟩

/-- Claim C8: when the persistence write fails, the failure is absorbed (the
file is simply left unchanged, no exception escapes the cycle) and the
in-memory current version still advances to the fetched triple, which is also
the one announced in the trigger payload. -/
theorem save_failure_caught_state_advances :
    ∀ (old nv : Version) (file : Option String) (f : FetchOutcome),
      getLatestTasmotaVersion f = some nv →
      updateAvailable old nv = true →
      saveTasmotaVersion file false nv = file ∧
      checkTasmotaReleases (some old) file f false =
        ⟨some nv, file,
          [⟨nv.major, nv.minor, nv.revision, old.major, old.minor, old.revision⟩]⟩ := by
  intro old nv file f hg hu
  refine ⟨rfl, ?_⟩
  simp [checkTasmotaReleases, hg, hu, saveTasmotaVersion]

/-- Witness for C8: stored `(1,0,0)`, fetched `v1.0.1`, failing write. -/
theorem save_failure_caught_state_advances_witness :
    getLatestTasmotaVersion (FetchOutcome.response 200 "v1.0.1") = some ⟨1, 0, 1⟩ ∧
    updateAvailable ⟨1, 0, 0⟩ ⟨1, 0, 1⟩ = true ∧
    saveTasmotaVersion (some "v1.0.0") false ⟨1, 0, 1⟩ = some "v1.0.0" ∧
    checkTasmotaReleases (some ⟨1, 0, 0⟩) (some "v1.0.0")
        (FetchOutcome.response 200 "v1.0.1") false =
      ⟨some ⟨1, 0, 1⟩, some "v1.0.0", [⟨1, 0, 1, 1, 0, 0⟩]⟩ :=
  ⟨by decide, by decide,
    (save_failure_caught_state_advances ⟨1, 0, 0⟩ ⟨1, 0, 1⟩ (some "v1.0.0")
      (FetchOutcome.response 200 "v1.0.1") (by decide) (by decide)).1,
    (save_failure_caught_state_advances ⟨1, 0, 0⟩ ⟨1, 0, 1⟩ (some "v1.0.0")
      (FetchOutcome.response 200 "v1.0.1") (by decide) (by decide)).2⟩

/-- Claim C9: a 200 response whose release tag does not match the version
pattern makes `getLatestTasmotaVersion` return the sentinel triple `(0,0,0)`
wrapped in `some` — not `none` — so the cycle proceeds with the sentinel
rather than being skipped. -/
theorem unparseable_tag_on_200_yields_sentinel :
    ∀ tag : String, ¬ matchesVersionPattern tag →
      getLatestTasmotaVersion (FetchOutcome.response 200 tag) = some ⟨0, 0, 0⟩ := by
  intro tag h
  simp [getLatestTasmotaVersion, parseVersionString_not_matches h, sentinelVersion]

/-- Witness for C9 at the tag text `untagged`. -/
theorem unparseable_tag_on_200_yields_sentinel_witness :
    ¬ matchesVersionPattern "untagged" ∧
    getLatestTasmotaVersion (FetchOutcome.response 200 "untagged") = some ⟨0, 0, 0⟩ := by
  have h : ¬ matchesVersionPattern "untagged" := by
    rintro ⟨d1, d2, d3, -, -, -, -, -, -, hdata⟩
    have hu : "untagged".data = 'u' :: ['n', 't', 'a', 'g', 'g', 'e', 'd'] := rfl
    rw [hu] at hdata
    injection hdata with hhead htail
    exact absurd hhead (by decide)
  exact ⟨h, unparseable_tag_on_200_yields_sentinel "untagged" h⟩

/-- Claim C10: the in-memory version is monotonically non-decreasing: the
constructor always initializes it to an actual triple (never null), and every
check cycle starting from a triple either leaves it unchanged or replaces it
with a strictly lexicographically greater triple. -/
theorem last_version_monotone :
    (∀ file : Option String, ∃ v : Version, initLastTasmotaVersion file = some v) ∧
    (∀ (old : Version) (file : Option String) (f : FetchOutcome) (w : Bool),
      (checkTasmotaReleases (some old) file f w).lastTasmotaVersion = some old ∨
      ∃ n : Version,
        (checkTasmotaReleases (some old) file f w).lastTasmotaVersion = some n ∧
          lexLt old n) := by
  constructor
  · intro file
    exact ⟨loadTasmotaVersionFromFile file, rfl⟩
  · intro old file f w
    rcases hg : getLatestTasmotaVersion f with _ | nv
    · left
      simp [checkTasmotaReleases, hg]
    · by_cases hu : updateAvailable old nv = true
      · right
        refine ⟨nv, ?_, (updateAvailable_iff old nv).mp hu⟩
        simp [checkTasmotaReleases, hg, hu]
      · left
        rw [Bool.not_eq_true] at hu
        simp [checkTasmotaReleases, hg, hu]
